import Mathlib

/-!
Verification of the KEC-HUB placement/opportunity core.

This file gives a shallow embedding, in Lean 4, of the subsystem specified
in spec.md: the feature builder and recommender of backend/ml
(features.py, predict.py), the eligibility filter and allow-list
normalization of backend/app/routers/management.py, the event attendance
state machine of backend/app/routers/events.py, and the reason-merging
step shared by backend/app/routers/student.py and management.py.

Modelling conventions:
  - Python strings that undergo `.lower()`/`.strip()` are modelled as
    `List Char` (named `PyStr`): a Python `str` is a sequence of code
    points, `str.lower` maps a case function over it and `str.strip`
    drops whitespace from both ends.  Strings that are only ever
    compared for equality (ids, emails, reason texts) stay as `String`.
  - Python floats are modelled as rationals (ℚ); every arithmetic step
    in the embedded code paths is exact at the values the claims mention.
  - Python dict lookups with defaults (`d.get(k, v)`) are modelled either
    by an `Option` field read with `Option.getD`, or by a plain field when
    the producing site always supplies the key.
  - A fallible call (`try ... except`) is modelled by an `Option`-valued
    function: `none` models a raised exception.
  - Python `sorted(..., key=..., reverse=True)` is a stable descending
    sort; it is modelled by `List.mergeSort` with the matching total
    Boolean relation (both are stable sorts, so they agree extensionally).
  - Python `list(set(xs))` has an order that is unspecified (string hash
    randomization), so it is modelled by the relation `IsPySetList xs l`:
    the guarantees CPython actually gives are exactly that `l` has no
    duplicates and the same members as `xs`.
  - Python `round(x, 3)` is modelled as rounding to the nearest multiple
    of 1/1000 (`round3`); no claim depends on the tie-breaking direction.
-/

namespace KecHub

/-- A Python string viewed as its sequence of code points. -/
abbrev PyStr := List Char

/-- Model of Python `str.lower()` (per-code-point lowering; the
departments and skills this repository compares are ASCII). -/
def pyLower (s : PyStr) : PyStr := s.map Char.toLower

/-- Model of Python `str.strip()`: remove leading and trailing
whitespace. -/
def pyStrip (s : PyStr) : PyStr :=
  (s.dropWhile Char.isWhitespace).rdropWhile Char.isWhitespace

/-! ## Embedding of backend/ml/features.py -/

/-- A student dict as consumed by `build_features` in features.py:
keys `skills`, `branch`, `year`, `resume_score`.  `resume_score` is read
with `student.get("resume_score", 0.5)`, so it is modelled as optional;
`year` is read with default 0, modelled as a plain field because every
call site in the repository supplies it. -/
structure Student where
  skills : List PyStr
  branch : PyStr
  year : Int
  resume_score : Option ℚ
deriving DecidableEq

/-- An opportunity dict as consumed by `build_features` in features.py:
keys `id`, `required_skills`, `branch`, `min_year`. -/
structure Opp where
  id : String
  required_skills : List PyStr
  branch : PyStr
  min_year : Int
deriving DecidableEq

/-- Embeds `clean_skills` of features.py.  The Python function returns
`list(set(s.lower().strip() for s in skills))`; its only consumer,
`skill_match`, immediately re-forms sets from it, so the embedding keeps
the set itself: the lower-cased, trimmed, deduplicated tokens. -/
def clean_skills (skills : List PyStr) : Finset PyStr :=
  (skills.map (fun s => pyStrip (pyLower s))).toFinset

/-- Embeds `skill_match` of features.py: returns 0.0 if either raw skill
list is falsy, otherwise the intersection-over-required ratio of the
cleaned skill sets (with a second guard, `if not o_set: return 0.0`,
before the division). -/
def skill_match (student_skills opp_skills : List PyStr) : ℚ :=
  if student_skills.isEmpty || opp_skills.isEmpty then 0
  else
    let s_set := clean_skills student_skills
    let o_set := clean_skills opp_skills
    if o_set = ∅ then 0
    else ((s_set ∩ o_set).card : ℚ) / ((o_set.card : ℚ))

/-- Embeds `build_features` of features.py, which returns the Python list
`[skill_match(...), int(lower(branch) == lower(branch)),
int(year >= min_year), float(resume_score)]` in exactly this order. -/
def build_features (student : Student) (opp : Opp) : List ℚ :=
  [ skill_match student.skills opp.required_skills
  , if pyLower student.branch = pyLower opp.branch then 1 else 0
  , if opp.min_year ≤ student.year then 1 else 0
  , student.resume_score.getD (1/2) ]

/-! ## Embedding of backend/ml/predict.py -/

/-- A ranked entry as appended by `recommend` in predict.py: the dict
`{"opportunity_id": ..., "score": ..., "why_recommended": [...]}`. -/
structure RankedItem where
  opportunity_id : String
  score : ℚ
  why_recommended : List String
deriving DecidableEq

/-- Rounding to three decimal places, the model of Python
`round(float(score), 3)` in predict.py. -/
def round3 (q : ℚ) : ℚ := ((round (q * 1000) : ℤ) : ℚ) / 1000

/-- Scoring of one opportunity inside the loop of `recommend`
(predict.py lines 14-33).  The loaded classifier
(`model.predict_proba([features])[0][1]`) is an external artifact, so it
is a parameter `model`; `model features = none` models a raised
exception, which the code catches, substituting the fallback score 0.5.
The two reason strings depend only on `features[0]` and `features[2]`. -/
def scoreItem (model : List ℚ → Option ℚ) (student : Student) (opp : Opp) :
    RankedItem :=
  let features := build_features student opp
  let score : ℚ := match model features with
    | some p => p
    | none => 1/2
  { opportunity_id := opp.id
  , score := round3 score
  , why_recommended :=
      [ if (6/10 : ℚ) < features.getD 0 0 then "High skill match"
        else "Profile relevance"
      , if features.getD 2 0 = 1 then "Eligible year"
        else "Growth potential" ] }

/-- The comparison used by the final `sorted(ranked, key=lambda x:
x["score"], reverse=True)` of predict.py: `a` may come before `b` iff
`a`'s score is at least `b`'s. -/
def scoreDescLe (a b : RankedItem) : Bool := decide (b.score ≤ a.score)

/-- Embeds `recommend` of predict.py: score every opportunity in input
order, then stable-sort by score descending. -/
def recommend (model : List ℚ → Option ℚ) (student : Student)
    (opportunities : List Opp) : List RankedItem :=
  (opportunities.map (scoreItem model student)).mergeSort scoreDescLe

/-! ## Embedding of backend/app/routers/management.py -/

/-- A resource attached to a placement notice; `_extract_skills` in
`list_visible_placement_notices` reads `r.get("label", "")`. -/
structure ResourceMeta where
  label : PyStr
deriving DecidableEq

/-- A placement-notice document as stored by `create_placement_notice`
and read back by `export_eligible_students_csv` and
`list_visible_placement_notices`: the fields those two readers use. -/
structure PlacementDoc where
  docId : String
  allowedDepartments : List PyStr
  allowedDepartmentsLower : List PyStr
  minCgpa : Option ℚ
  maxArrears : Option Int
  resources : List ResourceMeta
  minYear : Option Int
deriving DecidableEq

/-- A student user document as read by `export_eligible_students_csv`:
`department`, `profile.cgpa`, `profile.arrears_history`.  A `none`
models a missing key and also a value on which `float(...)`/`int(...)`
raises (the code's bare `except: continue` treats both as ineligible). -/
structure StudentDoc where
  department : PyStr
  cgpa : Option ℚ
  arrears_history : Option Int
deriving DecidableEq

/-- Embeds the per-student eligibility test of
`export_eligible_students_csv` (management.py lines 260-278): the three
sequential `continue` guards on department allow-list, minimum CGPA and
maximum arrears, folded into one conjunction. -/
def exportEligible (n : PlacementDoc) (s : StudentDoc) : Bool :=
  let dept_l := pyLower (pyStrip s.department)
  (n.allowedDepartmentsLower.isEmpty || n.allowedDepartmentsLower.contains dept_l)
  && (match n.minCgpa, s.cgpa with
      | none, _ => true
      | some _, none => false
      | some m, some c => decide (m ≤ c))
  && (match n.maxArrears, s.arrears_history with
      | none, _ => true
      | some _, none => false
      | some m, some a => decide (a ≤ m))

/-- Embeds the row-collection loop of `export_eligible_students_csv`:
the students surviving all three gates, in input order (each surviving
student contributes exactly one CSV row, so the row list is modelled by
the list of surviving student documents). -/
def export_eligible_rows (n : PlacementDoc) (students : List StudentDoc) :
    List StudentDoc :=
  students.filter (exportEligible n)

/-- Embeds `_normalize_allowed_departments` of management.py (the Python
name carries a leading underscore): trim every entry, drop the ones that
trim to empty, collapse the whole list to `[]` if any surviving entry is
`all` or `*` case-insensitively, and pair the result with its
lower-cased form. -/
def normalize_allowed_departments (raw : Option (List PyStr)) :
    List PyStr × List PyStr :=
  let allowed := ((raw.getD []).map pyStrip).filter (fun d => !d.isEmpty)
  let allowed :=
    if allowed.any (fun d => pyLower d == "all".toList || pyLower d == "*".toList)
    then []
    else allowed
  (allowed, allowed.map pyLower)

/-! ## Embedding of backend/app/routers/events.py -/

/-- Embeds the inline allow-list normalization of `create_event`
(events.py lines 88-91), written there with a redundant second
`d.strip()` inside the sentinel test. -/
def event_allowed_departments (raw : Option (List PyStr)) :
    List PyStr × List PyStr :=
  let allowed := ((raw.getD []).map pyStrip).filter (fun d => !d.isEmpty)
  let allowed :=
    if allowed.any (fun d =>
        pyLower (pyStrip d) == "all".toList || pyLower (pyStrip d) == "*".toList)
    then []
    else allowed
  (allowed, allowed.map pyLower)

/-- An event-registration document: the fields used by
`mark_event_attendance` (events.py lines 306-354).  `attendedAt` is a
timestamp, modelled as an abstract tick. -/
structure Registration where
  eventId : String
  studentEmail : String
  isPresent : Bool
  attendedAt : Option Nat
deriving DecidableEq

/-- Key test for one (event, student) pair. -/
def regMatches (eid email : String) (r : Registration) : Bool :=
  r.eventId == eid && r.studentEmail == email

/-- Modelled from the spec: `EventRegistrationRepository.get_one` (the
repository module `app/database/repositories` is not among the sources
here) — fetch the registration record of the given (event, student)
pair, `none` when the student is not registered. -/
def get_one (regs : List Registration) (eid email : String) :
    Option Registration :=
  regs.find? (regMatches eid email)

/-- Modelled from the spec: `EventRegistrationRepository.mark_attendance`
(repository module not among the sources) — set the attendance flag and
its timestamp on the stored record of the (event, student) pair. -/
def repo_mark_attendance (regs : List Registration) (eid email : String)
    (status : Bool) (now : Nat) : List Registration :=
  regs.map fun r =>
    if regMatches eid email r then
      { r with isPresent := status, attendedAt := some now }
    else r

/-- Embeds the decision core of `mark_event_attendance` (events.py lines
340-354), after the manager/identifier resolution: look up the
registration; absent → failure; already holding the requested status →
success without touching the store; otherwise write the new status and
report success.  Returns the new store paired with the success flag of
the `ApiResponse`. -/
def mark_event_attendance (regs : List Registration) (eid email : String)
    (status : Bool) (now : Nat) : List Registration × Bool :=
  match get_one regs eid email with
  | none => (regs, false)
  | some reg =>
    if reg.isPresent == status then (regs, true)
    else (repo_mark_attendance regs eid email status now, true)

/-- Number of stored attendance/registration records of one
(event, student) pair. -/
def regCount (regs : List Registration) (eid email : String) : Nat :=
  (regs.filter (regMatches eid email)).length

/-! ## Embedding of the reason-merging step

Both production call sites update an item's reasons with
`item.reasons = list(set((item.reasons or []) + rec["why_recommended"]))`
(student.py line 204, management.py line 220).  CPython guarantees for
`list(set(xs))` only that the result is duplicate-free and has the same
members as `xs`; its order depends on string hash randomization and is
unspecified, so the step is embedded as a relation. -/

/-- Contract of Python `list(set(xs))`: `l` is a possible result iff it
is duplicate-free and has exactly the members of `xs`. -/
def IsPySetList (xs l : List String) : Prop :=
  l.Nodup ∧ ∀ s : String, s ∈ l ↔ s ∈ xs

/-! ## Embedding of the two production recommender call sites -/

/-- Embeds `_extract_skills` of `list_visible_placement_notices`
(management.py lines 197-202): the lower-cased resource labels. -/
def extract_skills (d : PlacementDoc) : List PyStr :=
  d.resources.map (fun r => pyLower r.label)

/-- Embeds the `opp_data` construction of
`list_visible_placement_notices` (management.py lines 204-209): every
record's `branch` is set to `dept`, the student's own department. -/
def mgmtOppData (dept : PyStr) (docs : List PlacementDoc) : List Opp :=
  docs.map fun d =>
    { id := d.docId
    , required_skills := extract_skills d
    , branch := dept
    , min_year := d.minYear.getD 1 }

/-- Embeds the `student_data` construction of
`list_visible_placement_notices` (management.py lines 190-195). -/
def mgmtStudentData (dept : PyStr) (skills : List PyStr)
    (year : Option Int) (resumeScore : Option ℚ) : Student :=
  { skills := skills
  , branch := dept
  , year := year.getD 3
  , resume_score := some (resumeScore.getD (7/10)) }

/-- An opportunity produced by the realtime extractor, as consumed by
`realtime_opportunities` (student.py): its id and tags. -/
structure ExtractedOp where
  opId : String
  tags : List PyStr
deriving DecidableEq

/-- Embeds the `opp_data` construction of `realtime_opportunities`
(student.py lines 190-195): every record's `branch` is set to
`signals.department`, the student's own department. -/
def realtimeOppData (department : PyStr) (ops : List ExtractedOp) :
    List Opp :=
  ops.map fun o =>
    { id := "rt-" ++ o.opId
    , required_skills := o.tags
    , branch := department
    , min_year := 1 }

/-- Embeds the `student_data` construction of `realtime_opportunities`
(student.py lines 183-188). -/
def realtimeStudentData (department : PyStr) (skills : List PyStr)
    (year : Option Int) (resumeScore : Option ℚ) : Student :=
  { skills := skills
  , branch := department
  , year := year.getD 3
  , resume_score := some (resumeScore.getD (7/10)) }

/-! ## Spec-side definitions (written from the claims' words, for
refinement comparisons) -/

/-- Skill-match formula exactly as the spec words it:
`|normalize(student.skills) ∩ normalize(opp.requiredSkills)| /
|normalize(opp.requiredSkills)|`, with the value 0.0 whenever either
normalized skill set is empty. -/
def claimSkillMatch (s o : List PyStr) : ℚ :=
  if clean_skills s = ∅ ∨ clean_skills o = ∅ then 0
  else ((clean_skills s ∩ clean_skills o).card : ℚ) / ((clean_skills o).card : ℚ)

/-! ## Helper lemmas -/

theorem clean_skills_eq_empty_iff (l : List PyStr) :
    clean_skills l = ∅ ↔ l = [] := by
  simp [clean_skills]

theorem skill_match_eq_claim (s o : List PyStr) :
    skill_match s o = claimSkillMatch s o := by
  by_cases hs : s = []
  · subst hs
    simp [skill_match, claimSkillMatch, clean_skills_eq_empty_iff]
  · by_cases ho : o = []
    · subst ho
      simp [skill_match, claimSkillMatch, clean_skills_eq_empty_iff]
    · have h1 : s.isEmpty = false := by simp [List.isEmpty_iff, hs]
      have h2 : o.isEmpty = false := by simp [List.isEmpty_iff, ho]
      have h3 : ¬ clean_skills o = ∅ := by
        simp [clean_skills_eq_empty_iff, ho]
      simp [skill_match, claimSkillMatch, h1, h2, h3,
        clean_skills_eq_empty_iff, hs, ho]

/-! ## Claim C2 -/

/-- C2: the Feature Builder is a pure function returning exactly the
4-tuple [skillMatch, departmentMatch, yearEligible, resumeScore]:
skillMatch is the normalized-intersection ratio (0.0 when either skill
set is empty, in particular when the required skills are empty);
departmentMatch is 1 iff the department strings match case-insensitively
(else 0); yearEligible is 1 iff `student.year >= opp.minYear` (else 0);
resumeScore is passed through unchanged and defaults to 0.5 when
absent. -/
theorem feature_builder_is_claimed_tuple (student : Student) (opp : Opp) :
    (build_features student opp).length = 4 ∧
    (build_features student opp).getD 0 0
      = claimSkillMatch student.skills opp.required_skills ∧
    ((build_features student opp).getD 1 0 = 1
      ↔ pyLower student.branch = pyLower opp.branch) ∧
    ((build_features student opp).getD 1 0 = 1
      ∨ (build_features student opp).getD 1 0 = 0) ∧
    ((build_features student opp).getD 2 0 = 1
      ↔ opp.min_year ≤ student.year) ∧
    ((build_features student opp).getD 2 0 = 1
      ∨ (build_features student opp).getD 2 0 = 0) ∧
    (∀ v : ℚ, student.resume_score = some v
      → (build_features student opp).getD 3 0 = v) ∧
    (student.resume_score = none
      → (build_features student opp).getD 3 0 = 1/2) := by
  refine ⟨rfl, ?_, ?_, ?_, ?_, ?_, ?_, ?_⟩
  · simpa [build_features] using
      skill_match_eq_claim student.skills opp.required_skills
  · by_cases h : pyLower student.branch = pyLower opp.branch <;>
      simp [build_features, h]
  · by_cases h : pyLower student.branch = pyLower opp.branch <;>
      simp [build_features, h]
  · by_cases h : opp.min_year ≤ student.year <;>
      simp [build_features, h]
  · by_cases h : opp.min_year ≤ student.year <;>
      simp [build_features, h]
  · intro v hv
    simp [build_features, hv]
  · intro hv
    simp [build_features, hv]

/-- Witness for C2 at a concrete student/opportunity pair. -/
theorem feature_builder_is_claimed_tuple_witness :
    (build_features ⟨[], [], 0, none⟩ ⟨"o", [], [], 0⟩).getD 3 0 = 1/2 ∧
    (build_features ⟨[], [], 0, none⟩ ⟨"o", [], [], 0⟩).length = 4 :=
  ⟨(feature_builder_is_claimed_tuple ⟨[], [], 0, none⟩ ⟨"o", [], [], 0⟩).2.2.2.2.2.2.2 rfl,
   (feature_builder_is_claimed_tuple ⟨[], [], 0, none⟩ ⟨"o", [], [], 0⟩).1⟩

/-! ## Claim C10 -/

/-- C10: at both production call sites of the recommender — the realtime
opportunities endpoint (student.py) and the visible placement notices
endpoint (management.py) — every opportunity record passed in has its
`branch` field set to the student's own department, so the
departmentMatch feature (`features[1]`) evaluates to 1 for every scored
opportunity: in production that feature is constant. -/
theorem department_match_constant_at_call_sites (dept : PyStr)
    (skills : List PyStr) (year : Option Int) (resumeScore : Option ℚ)
    (docs : List PlacementDoc) (ops : List ExtractedOp) :
    (∀ opp ∈ mgmtOppData dept docs,
      (build_features (mgmtStudentData dept skills year resumeScore) opp).getD 1 0 = 1) ∧
    (∀ opp ∈ realtimeOppData dept ops,
      (build_features (realtimeStudentData dept skills year resumeScore) opp).getD 1 0 = 1) := by
  constructor
  · intro opp hopp
    obtain ⟨d, -, rfl⟩ := List.mem_map.1 hopp
    simp [build_features, mgmtStudentData]
  · intro opp hopp
    obtain ⟨o, -, rfl⟩ := List.mem_map.1 hopp
    simp [build_features, realtimeStudentData]

/-! ## Claim C7 -/

/-- C7: every opportunity id appearing in the ranker's output also
appears in its input list: `recommend` never invents an id, so no id
absent from the (eligibility-filtered) input ever appears in the ranked
output. -/
theorem rank_output_ids_subset_input (model : List ℚ → Option ℚ)
    (student : Student) (opportunities : List Opp) :
    ∀ r ∈ recommend model student opportunities,
      ∃ opp ∈ opportunities, r.opportunity_id = opp.id := by
  intro r hr
  rw [recommend, List.mem_mergeSort] at hr
  obtain ⟨opp, hopp, rfl⟩ := List.mem_map.1 hr
  exact ⟨opp, hopp, rfl⟩

/-- Witness for C7: with one input opportunity, the single output item
carries that opportunity's id. -/
theorem rank_output_ids_subset_input_witness :
    ∃ opp ∈ [(⟨"a", [], [], 0⟩ : Opp)],
      (scoreItem (fun _ => none) ⟨[], [], 0, none⟩ ⟨"a", [], [], 0⟩).opportunity_id
        = opp.id :=
  rank_output_ids_subset_input (fun _ => none) ⟨[], [], 0, none⟩
    [⟨"a", [], [], 0⟩]
    (scoreItem (fun _ => none) ⟨[], [], 0, none⟩ ⟨"a", [], [], 0⟩)
    (by rw [recommend]; simp)

/-- Witness for C10 at a concrete placement document: the department
feature is 1. -/
theorem department_match_constant_witness :
    (build_features
        (mgmtStudentData "cse".toList [] none none)
        ⟨"d", [], "cse".toList, 1⟩).getD 1 0 = 1 :=
  (department_match_constant_at_call_sites "cse".toList [] none none
      [⟨"d", [], [], none, none, [], none⟩] []).1
    ⟨"d", [], "cse".toList, 1⟩ (by decide)

/-! ## Claim C4 -/

/-- C4: reason generation is a deterministic function of the feature
vector only, not of the score (the classifier parameter is irrelevant to
it): each scored item carries exactly one skill-group reason — "High
skill match" iff `features[0] > 0.6`, else "Profile relevance" — and
exactly one year-group reason — "Eligible year" iff `features[2] == 1`,
else "Growth potential" — and never a duplicate. -/
theorem reasons_deterministic_from_features (model₁ model₂ : List ℚ → Option ℚ)
    (student : Student) (opp : Opp) :
    (scoreItem model₁ student opp).why_recommended
      = (scoreItem model₂ student opp).why_recommended ∧
    (scoreItem model₁ student opp).why_recommended.length = 2 ∧
    (scoreItem model₁ student opp).why_recommended.Nodup ∧
    ("High skill match" ∈ (scoreItem model₁ student opp).why_recommended
      ↔ 6/10 < (build_features student opp).getD 0 0) ∧
    ("Profile relevance" ∈ (scoreItem model₁ student opp).why_recommended
      ↔ ¬ 6/10 < (build_features student opp).getD 0 0) ∧
    ("Eligible year" ∈ (scoreItem model₁ student opp).why_recommended
      ↔ (build_features student opp).getD 2 0 = 1) ∧
    ("Growth potential" ∈ (scoreItem model₁ student opp).why_recommended
      ↔ ¬ (build_features student opp).getD 2 0 = 1) := by
  refine ⟨rfl, rfl, ?_, ?_, ?_, ?_, ?_⟩ <;>
    by_cases h1 : (6/10 : ℚ) < (build_features student opp).getD 0 0 <;>
    by_cases h2 : (build_features student opp).getD 2 0 = 1 <;>
    simp only [List.getD_eq_getElem?_getD] at h1 h2 <;>
    simp [scoreItem, h1, h2]

/-! ## Claim C3 -/

theorem round3_mem_unit_interval {q : ℚ} (h0 : 0 ≤ q) (h1 : q ≤ 1) :
    0 ≤ round3 q ∧ round3 q ≤ 1 := by
  have hk0 : (0 : ℤ) ≤ round (q * 1000) := by
    rw [round_eq]
    have : (0 : ℚ) ≤ q * 1000 + 1/2 := by nlinarith
    exact Int.floor_nonneg.mpr this
  have hk1 : round (q * 1000) ≤ 1000 := by
    rw [round_eq]
    have h : q * 1000 + 1/2 ≤ 1000 + 1/2 := by nlinarith
    calc ⌊q * 1000 + 1/2⌋ ≤ ⌊(1000 : ℚ) + 1/2⌋ := Int.floor_le_floor h
    _ = 1000 := by norm_num [Int.floor_eq_iff]
  constructor
  · rw [round3]
    positivity
  · rw [round3, div_le_one (by norm_num)]
    exact_mod_cast hk1

theorem round3_half : round3 (1/2) = 1/2 := by
  have : ((1:ℚ)/2) * 1000 = 500 := by norm_num
  rw [round3, this]
  norm_num

/-- C3: every score the recommender returns lies in [0,1] and is rounded
to three decimals (a multiple of 1/1000), assuming only that a
successful classifier call returns a probability in [0,1] (which
`predict_proba` guarantees); and when the classifier invocation raises
on an opportunity's features, the exception is caught locally — the
Lean embedding of `recommend` is a total function — and that
opportunity's item carries exactly the fallback score 0.5 and still
reaches the output. -/
theorem scores_bounded_and_fallback (model : List ℚ → Option ℚ)
    (student : Student) (opportunities : List Opp)
    (hmodel : ∀ f p, model f = some p → 0 ≤ p ∧ p ≤ 1) :
    (∀ r ∈ recommend model student opportunities,
      (0 ≤ r.score ∧ r.score ≤ 1) ∧ ∃ k : ℤ, r.score = (k : ℚ)/1000) ∧
    (∀ opp ∈ opportunities, model (build_features student opp) = none →
      (scoreItem model student opp).score = 1/2 ∧
      scoreItem model student opp ∈ recommend model student opportunities) := by
  constructor
  · intro r hr
    rw [recommend, List.mem_mergeSort] at hr
    obtain ⟨opp, -, rfl⟩ := List.mem_map.1 hr
    have hraw : ∃ q : ℚ, 0 ≤ q ∧ q ≤ 1 ∧
        (scoreItem model student opp).score = round3 q := by
      cases hm : model (build_features student opp) with
      | none => exact ⟨1/2, by norm_num, by norm_num, by simp [scoreItem, hm]⟩
      | some p =>
        obtain ⟨hp0, hp1⟩ := hmodel _ p hm
        exact ⟨p, hp0, hp1, by simp [scoreItem, hm]⟩
    obtain ⟨q, hq0, hq1, hq⟩ := hraw
    rw [hq]
    exact ⟨round3_mem_unit_interval hq0 hq1, round (q * 1000), rfl⟩
  · intro opp hopp hm
    refine ⟨?_, ?_⟩
    · have : (scoreItem model student opp).score = round3 (1/2) := by
        simp [scoreItem, hm]
      rw [this, round3_half]
    · rw [recommend, List.mem_mergeSort]
      exact List.mem_map_of_mem _ hopp

/-- Witness for C3: a classifier that always raises; the opportunity
comes back with score exactly 0.5 and still reaches the output. -/
theorem scores_bounded_and_fallback_witness :
    (scoreItem (fun _ => none) ⟨[], [], 0, none⟩ ⟨"a", [], [], 0⟩).score
      = 1/2 ∧
    scoreItem (fun _ => none) ⟨[], [], 0, none⟩ ⟨"a", [], [], 0⟩
      ∈ recommend (fun _ => none) ⟨[], [], 0, none⟩ [⟨"a", [], [], 0⟩] :=
  (scores_bounded_and_fallback (fun _ => none) ⟨[], [], 0, none⟩
      [⟨"a", [], [], 0⟩] (fun _ p h => by simp at h)).2
    ⟨"a", [], [], 0⟩ (by simp) rfl

/-! ## Claim C5 -/

theorem scoreDescLe_trans (a b c : RankedItem) :
    scoreDescLe a b → scoreDescLe b c → scoreDescLe a c := by
  simp only [scoreDescLe, decide_eq_true_eq]
  exact fun h1 h2 => le_trans h2 h1

theorem scoreDescLe_total (a b : RankedItem) :
    scoreDescLe a b || scoreDescLe b a := by
  simp only [scoreDescLe, Bool.or_eq_true, decide_eq_true_eq]
  exact le_total b.score a.score

/-- C5: the ranker's output is sorted by score descending, ties between
equal scores keep the stable order in which the opportunities arrived
(for every score value, the output's items of that score are exactly the
input's scored items of that score, in input order), and calling `rank`
twice with identical inputs yields identical ordered output. -/
theorem rank_sorted_stable_deterministic (model : List ℚ → Option ℚ)
    (student : Student) (opportunities : List Opp) :
    (recommend model student opportunities).Pairwise
      (fun a b => b.score ≤ a.score) ∧
    (∀ v : ℚ,
      (recommend model student opportunities).filter
          (fun r => decide (r.score = v))
        = (opportunities.map (scoreItem model student)).filter
          (fun r => decide (r.score = v))) ∧
    recommend model student opportunities
      = recommend model student opportunities := by
  refine ⟨?_, ?_, rfl⟩
  · have h := List.sorted_mergeSort scoreDescLe_trans scoreDescLe_total
      (opportunities.map (scoreItem model student))
    rw [recommend]
    exact h.imp (fun hab => by
      simpa [scoreDescLe, decide_eq_true_eq] using hab)
  · intro v
    set scored := opportunities.map (scoreItem model student) with hscored
    set p : RankedItem → Bool := fun r => decide (r.score = v) with hp
    have hpw : (scored.filter p).Pairwise
        (fun a b => scoreDescLe a b = true) := by
      apply List.pairwise_of_forall_mem_list
      intro a ha b hb
      have ha' : a.score = v := by
        have := List.of_mem_filter ha
        simpa [hp] using this
      have hb' : b.score = v := by
        have := List.of_mem_filter hb
        simpa [hp] using this
      simp [scoreDescLe, ha', hb']
    have hsub : List.Sublist (scored.filter p) (scored.mergeSort scoreDescLe) :=
      List.sublist_mergeSort scoreDescLe_trans scoreDescLe_total hpw
        (List.filter_sublist scored)
    have hsub2 : List.Sublist ((scored.filter p).filter p)
        ((scored.mergeSort scoreDescLe).filter p) := hsub.filter p
    rw [List.filter_filter] at hsub2
    have hsub3 : List.Sublist (scored.filter p)
        ((scored.mergeSort scoreDescLe).filter p) := by
      have : (fun a => p a && p a) = p := by
        funext a; cases h : p a <;> simp [h]
      rwa [this] at hsub2
    have hlen : ((scored.mergeSort scoreDescLe).filter p).length
        = (scored.filter p).length :=
      ((List.mergeSort_perm scored scoreDescLe).filter p).length_eq
    rw [recommend]
    exact (hsub3.eq_of_length hlen.symm).symm

/-! ## Claim C1 -/

/-- C1: exported eligibility is the conjunction of three gates.  A
student appears in the export rows iff they are among the queried
students and (1) when the allow-list is non-empty their (trimmed)
department appears in it case-insensitively — an empty list excludes
nobody; (2) when `minCgpa` is set they have a known CGPA ≥ it — an
unknown CGPA fails the gate; (3) when `maxArrears` is set they have a
known arrears count ≤ it — an unknown count fails the gate.  Failing
any gate omits the student from the rows entirely.  The hypothesis is
the write-path invariant established by `create_placement_notice`: the
stored lower-cased list is the lower-casing of the stored list. -/
theorem eligibility_three_gates (n : PlacementDoc)
    (students : List StudentDoc) (s : StudentDoc)
    (hlow : n.allowedDepartmentsLower = n.allowedDepartments.map pyLower) :
    s ∈ export_eligible_rows n students ↔
      s ∈ students ∧
      (n.allowedDepartments ≠ [] →
        ∃ d ∈ n.allowedDepartments,
          pyLower d = pyLower (pyStrip s.department)) ∧
      (∀ m, n.minCgpa = some m → ∃ c, s.cgpa = some c ∧ m ≤ c) ∧
      (∀ m, n.maxArrears = some m →
        ∃ a, s.arrears_history = some a ∧ a ≤ m) := by
  have hA : (n.allowedDepartmentsLower.isEmpty
        || n.allowedDepartmentsLower.contains (pyLower (pyStrip s.department)))
        = true
      ↔ (n.allowedDepartments ≠ [] →
          ∃ d ∈ n.allowedDepartments,
            pyLower d = pyLower (pyStrip s.department)) := by
    rw [hlow]
    simp only [Bool.or_eq_true, List.isEmpty_iff, List.map_eq_nil_iff,
      List.contains_iff_exists_mem_beq, beq_iff_eq]
    rw [or_iff_not_imp_left]
    constructor
    · intro h hne
      obtain ⟨x, hx, hxe⟩ := h hne
      obtain ⟨d, hd, rfl⟩ := List.mem_map.1 hx
      exact ⟨d, hd, hxe.symm⟩
    · intro h hne
      obtain ⟨d, hd, hde⟩ := h hne
      exact ⟨pyLower d, List.mem_map_of_mem _ hd, hde.symm⟩
  have hB : (match n.minCgpa, s.cgpa with
        | none, _ => true
        | some _, none => false
        | some m, some c => decide (m ≤ c)) = true
      ↔ (∀ m, n.minCgpa = some m → ∃ c, s.cgpa = some c ∧ m ≤ c) := by
    rcases n.minCgpa with - | m <;> rcases s.cgpa with - | c <;> simp
  have hC : (match n.maxArrears, s.arrears_history with
        | none, _ => true
        | some _, none => false
        | some m, some a => decide (a ≤ m)) = true
      ↔ (∀ m, n.maxArrears = some m →
          ∃ a, s.arrears_history = some a ∧ a ≤ m) := by
    rcases n.maxArrears with - | m <;> rcases s.arrears_history with - | a <;> simp
  rw [export_eligible_rows, List.mem_filter, exportEligible]
  simp only [Bool.and_eq_true]
  rw [hA, hB, hC, and_assoc]

/-- Witness for C1: an open-to-all notice with a minimum CGPA of 7.0 and
a student of unknown CGPA, who is therefore excluded. -/
theorem eligibility_three_gates_witness :
    (⟨"dept".toList, none, none⟩ : StudentDoc)
        ∈ export_eligible_rows ⟨"n", [], [], some 7, none, [], none⟩
            [⟨"dept".toList, none, none⟩] ↔
      (⟨"dept".toList, none, none⟩ : StudentDoc)
          ∈ [(⟨"dept".toList, none, none⟩ : StudentDoc)] ∧
      (([] : List PyStr) ≠ [] →
        ∃ d ∈ ([] : List PyStr),
          pyLower d = pyLower (pyStrip "dept".toList)) ∧
      (∀ m : ℚ, some (7:ℚ) = some m → ∃ c, (none : Option ℚ) = some c ∧ m ≤ c) ∧
      (∀ m : Int, (none : Option Int) = some m →
        ∃ a, (none : Option Int) = some a ∧ a ≤ m) :=
  eligibility_three_gates ⟨"n", [], [], some 7, none, [], none⟩
    [⟨"dept".toList, none, none⟩] ⟨"dept".toList, none, none⟩ rfl

/-! ## Claim C8 -/

theorem pyStrip_idem (l : PyStr) : pyStrip (pyStrip l) = pyStrip l := by
  rw [pyStrip, pyStrip]
  set t := l.dropWhile Char.isWhitespace with ht
  have hti : t.dropWhile Char.isWhitespace = t := by
    rw [ht]
    exact List.dropWhile_idempotent Char.isWhitespace l
  have hdw : (t.rdropWhile Char.isWhitespace).dropWhile Char.isWhitespace
      = t.rdropWhile Char.isWhitespace := by
    cases hh : t.rdropWhile Char.isWhitespace with
    | nil => simp
    | cons a r =>
      have hpre := List.rdropWhile_prefix (p := Char.isWhitespace) (l := t)
      rw [hh] at hpre
      obtain ⟨u, hu⟩ := hpre
      have htl : t = a :: (r ++ u) := by rw [← hu]; simp
      have hna : ¬ Char.isWhitespace a = true := by
        intro hwa
        rw [htl, List.dropWhile_cons, if_pos hwa] at hti
        have hlen := congrArg List.length hti
        rw [List.length_cons] at hlen
        have hle := (List.dropWhile_sublist (l := r ++ u)
          Char.isWhitespace).length_le
        omega
      simp [List.dropWhile_cons, hna]
  rw [hdw, List.rdropWhile_idempotent]

theorem any_strip_filter (raw : List PyStr) (p : PyStr → Bool)
    (hnil : p [] = false) :
    ((raw.map pyStrip).filter (fun d => !d.isEmpty)).any p
      = raw.any (fun d => p (pyStrip d)) := by
  induction raw with
  | nil => rfl
  | cons a l ih =>
    by_cases h : (pyStrip a).isEmpty
    · have ha : pyStrip a = [] := by simpa using h
      simp [List.filter_cons, h, ha, hnil, ih]
    · simp [List.filter_cons, h, ih]

/-- Write-time allow-list rule exactly as claim C8 words it: if the
administrator-supplied value contains the literal string `all` or `*`
(case-insensitively), the stored allow-list collapses to the empty
list; otherwise the stored list is the trimmed non-empty department
names together with their lower-cased forms. -/
def claimNormalizeAllowed (raw : Option (List PyStr)) :
    List PyStr × List PyStr :=
  if (raw.getD []).any (fun d => pyLower d == "all".toList || pyLower d == "*".toList)
  then ([], [])
  else
    let allowed := ((raw.getD []).map pyStrip).filter (fun d => !d.isEmpty)
    (allowed, allowed.map pyLower)

/-- Write-time allow-list rule with the one change the counterexample
forces: the sentinel comparison applies to the *trimmed* entries. -/
def claimNormalizeAllowedTrimmed (raw : Option (List PyStr)) :
    List PyStr × List PyStr :=
  if (raw.getD []).any (fun d =>
      pyLower (pyStrip d) == "all".toList || pyLower (pyStrip d) == "*".toList)
  then ([], [])
  else
    let allowed := ((raw.getD []).map pyStrip).filter (fun d => !d.isEmpty)
    (allowed, allowed.map pyLower)

/-! ## Claim C8 -/

/-- Counterexample to C8 as stated: the value `[" all "]` does not
contain the literal string `all` (even case-insensitively — its one
entry carries surrounding spaces), yet the code collapses the stored
allow-list to empty, because it strips each entry before the sentinel
comparison.  The claim's rule instead stores `["all"]`. -/
theorem allowed_departments_sentinel_counterexample :
    normalize_allowed_departments (some [" all ".toList])
        ≠ claimNormalizeAllowed (some [" all ".toList]) ∧
    normalize_allowed_departments (some [" all ".toList]) = ([], []) ∧
    claimNormalizeAllowed (some [" all ".toList])
        = (["all".toList], ["all".toList]) := by
  refine ⟨?_, ?_, ?_⟩ <;> decide

/-- C8 as amended: the sentinel test applies to the trimmed entries —
if any supplied entry equals `all` or `*` case-insensitively after
trimming, the stored allow-list collapses to the empty list, otherwise
the stored list is the trimmed non-empty names with their lower-cased
forms; `create_event` in events.py applies the identical rule; and the
sentinel is not re-interpreted at read time: a stored literal `all`
entry is an ordinary department name to the eligibility filter, not an
open-to-all marker. -/
theorem allowed_departments_sentinel_amended (raw : Option (List PyStr)) :
    normalize_allowed_departments raw = claimNormalizeAllowedTrimmed raw ∧
    event_allowed_departments raw = normalize_allowed_departments raw ∧
    exportEligible
        ⟨"n", ["all".toList], ["all".toList], none, none, [], none⟩
        ⟨"CSE".toList, some 9, some 0⟩ = false := by
  refine ⟨?_, ?_, by decide⟩
  · rw [normalize_allowed_departments, claimNormalizeAllowedTrimmed]
    rw [any_strip_filter _ _ (by decide)]
    split <;> simp_all
  · rw [event_allowed_departments, normalize_allowed_departments]
    rw [any_strip_filter _ _ (by decide),
      any_strip_filter _ _ (by decide)]
    have hsame := congrArg (fun q => (raw.getD []).any q)
      (funext (fun d : PyStr => show
          (pyLower (pyStrip (pyStrip d)) == "all".toList
            || pyLower (pyStrip (pyStrip d)) == "*".toList)
          = (pyLower (pyStrip d) == "all".toList
            || pyLower (pyStrip d) == "*".toList)
        from by rw [pyStrip_idem]))
    simp only at hsame
    rw [hsame]

/-! ## Claim C6 -/

/-- First-occurrence deduplication with an explicit seen-set, the
building block of `insertionOrderDedup`. -/
def iodAux : List String → List String → List String
  | [], _ => []
  | x :: xs, seen =>
    if x ∈ seen then iodAux xs seen else x :: iodAux xs (x :: seen)

/-- Deduplication in insertion order (first occurrence wins), as claim
C6 words the order of a merged reasons collection. -/
def insertionOrderDedup (l : List String) : List String := iodAux l []

theorem mem_iodAux (l : List String) (x : String) : ∀ seen : List String,
    x ∈ iodAux l seen ↔ x ∈ l ∧ x ∉ seen := by
  induction l with
  | nil => intro seen; simp [iodAux]
  | cons a t ih =>
    intro seen
    by_cases h : a ∈ seen
    · rw [iodAux, if_pos h, ih]
      simp only [List.mem_cons]
      constructor
      · rintro ⟨hx, hs⟩
        exact ⟨Or.inr hx, hs⟩
      · rintro ⟨hx | hx, hs⟩
        · exact absurd (hx ▸ h) hs
        · exact ⟨hx, hs⟩
    · rw [iodAux, if_neg h]
      simp only [List.mem_cons, ih]
      by_cases hxa : x = a
      · subst hxa
        simp [h]
      · simp [hxa]

theorem nodup_iodAux (l : List String) : ∀ seen : List String,
    (iodAux l seen).Nodup := by
  induction l with
  | nil => intro seen; simp [iodAux]
  | cons a t ih =>
    intro seen
    by_cases h : a ∈ seen
    · rw [iodAux, if_pos h]
      exact ih seen
    · rw [iodAux, if_neg h]
      refine List.Nodup.cons ?_ (ih (a :: seen))
      intro hmem
      exact ((mem_iodAux t a (a :: seen)).1 hmem).2 (List.mem_cons_self a seen)

/-- Counterexample to C6 as stated: `list(set(["a", "b"]))` may return
`["b", "a"]` (its order depends on string hash randomization), which is
a legal outcome of the merge step yet differs from the insertion-order
deduplication `["a", "b"]` — so the surviving strings do not retain
insertion order. -/
theorem merged_reasons_order_counterexample :
    IsPySetList (["a"] ++ ["b"]) ["b", "a"] ∧
    ["b", "a"] ≠ insertionOrderDedup (["a"] ++ ["b"]) := by
  refine ⟨⟨by decide, fun s => by simp [or_comm]⟩, by decide⟩

/-- C6 as amended: the merged reasons collection is deduplicated with
set semantics — every possible result of the merge step
`list(set(existing + new))` contains no string twice and holds exactly
the union of the scorer-supplied and externally supplied reasons — but
its order is unspecified, not insertion order (one possible outcome, as
`insertionOrderDedup` shows, but not guaranteed). -/
theorem merged_reasons_dedup_amended (existing newReasons l : List String)
    (h : IsPySetList (existing ++ newReasons) l) :
    (l.Nodup ∧
      ∀ s : String, s ∈ l ↔ (s ∈ existing ∨ s ∈ newReasons)) ∧
    IsPySetList (existing ++ newReasons)
      (insertionOrderDedup (existing ++ newReasons)) := by
  obtain ⟨hn, hm⟩ := h
  refine ⟨⟨hn, fun s => by rw [hm s, List.mem_append]⟩, ?_, fun s => ?_⟩
  · exact nodup_iodAux _ _
  · rw [insertionOrderDedup, mem_iodAux]
    simp

/-- Witness for C6's amended theorem: merging the scorer reasons
`["x"]` with the same external reason deduplicates to one entry. -/
theorem merged_reasons_dedup_amended_witness :
    ((["x"] : List String).Nodup ∧
      ∀ s : String, s ∈ ["x"] ↔ (s ∈ ["x"] ∨ s ∈ ["x"])) ∧
    IsPySetList (["x"] ++ ["x"]) (insertionOrderDedup (["x"] ++ ["x"])) :=
  merged_reasons_dedup_amended ["x"] ["x"] ["x"]
    ⟨by decide, fun s => by simp⟩

/-! ## Claim C9 -/

theorem find?_eq_head?_filter {α : Type} (q : α → Bool) (l : List α) :
    l.find? q = (l.filter q).head? := by
  induction l with
  | nil => rfl
  | cons a t ih =>
    by_cases h : q a = true
    · rw [List.find?_cons, List.filter_cons, h]
      simp
    · have hf : q a = false := by rwa [Bool.not_eq_true] at h
      rw [List.find?_cons, List.filter_cons, hf]
      simp only [Bool.false_eq_true, if_false]
      exact ih

/-- Updating the attendance fields never changes the record's key. -/
theorem regMatches_update (eid email : String) (status : Bool) (now : Nat)
    (r : Registration) :
    regMatches eid email
        { r with isPresent := status, attendedAt := some now }
      = regMatches eid email r := rfl

theorem filter_repo_mark (regs : List Registration) (eid email : String)
    (status : Bool) (now : Nat) :
    (repo_mark_attendance regs eid email status now).filter
        (regMatches eid email)
      = (regs.filter (regMatches eid email)).map
        (fun r => { r with isPresent := status, attendedAt := some now }) := by
  induction regs with
  | nil => rfl
  | cons a t ih =>
    rw [repo_mark_attendance, List.map_cons]
    by_cases h : regMatches eid email a
    · rw [if_pos h]
      rw [List.filter_cons, List.filter_cons]
      rw [regMatches_update]
      rw [if_pos h, if_pos h, List.map_cons]
      exact congrArg _ (by simpa [repo_mark_attendance] using ih)
    · rw [if_neg h]
      rw [List.filter_cons, List.filter_cons]
      rw [if_neg h, if_neg h]
      simpa [repo_mark_attendance] using ih

theorem get_one_repo_mark (regs : List Registration) (eid email : String)
    (status : Bool) (now : Nat) :
    get_one (repo_mark_attendance regs eid email status now) eid email
      = (get_one regs eid email).map
        (fun r => { r with isPresent := status, attendedAt := some now }) := by
  rw [get_one, get_one, find?_eq_head?_filter, find?_eq_head?_filter,
    filter_repo_mark, List.head?_map]

theorem regCount_repo_mark (regs : List Registration) (eid email : String)
    (status : Bool) (now : Nat) :
    regCount (repo_mark_attendance regs eid email status now) eid email
      = regCount regs eid email := by
  rw [regCount, regCount, filter_repo_mark, List.length_map]

theorem mark_found (regs : List Registration) (eid email : String)
    (r0 : Registration) (hget : get_one regs eid email = some r0)
    (status : Bool) (now : Nat) :
    mark_event_attendance regs eid email status now
      = if r0.isPresent == status then (regs, true)
        else (repo_mark_attendance regs eid email status now, true) := by
  rw [mark_event_attendance, hget]

/-- C9: for a registered student holding exactly one attendance record
for the event, marking attendance reports success and keeps exactly one
record; re-marking the status the student already holds is a no-op
(state unchanged) that still reports success, not an error; and marking
the opposite status is allowed and simply flips the flag and its
timestamp (still one record). -/
theorem attendance_idempotent_toggle (regs : List Registration)
    (eid email : String) (status : Bool) (now now' : Nat)
    (h : regCount regs eid email = 1) :
    (mark_event_attendance regs eid email status now).2 = true ∧
    regCount (mark_event_attendance regs eid email status now).1 eid email
      = 1 ∧
    (get_one (mark_event_attendance regs eid email status now).1
        eid email).map Registration.isPresent = some status ∧
    mark_event_attendance
        (mark_event_attendance regs eid email status now).1 eid email
        status now'
      = ((mark_event_attendance regs eid email status now).1, true) ∧
    (mark_event_attendance
        (mark_event_attendance regs eid email status now).1 eid email
        (!status) now').2 = true ∧
    regCount (mark_event_attendance
        (mark_event_attendance regs eid email status now).1 eid email
        (!status) now').1 eid email = 1 ∧
    (get_one (mark_event_attendance
        (mark_event_attendance regs eid email status now).1 eid email
        (!status) now').1 eid email).map
        (fun r => (r.isPresent, r.attendedAt))
      = some (!status, some now') := by
  obtain ⟨r0, hf⟩ := List.length_eq_one.mp h
  have hget : get_one regs eid email = some r0 := by
    rw [get_one, find?_eq_head?_filter, hf]
    rfl
  have hflipbeq : (status == !status) = false := by cases status <;> rfl
  have hkey : ∀ (regs' : List Registration) (r1 : Registration),
      get_one regs' eid email = some r1 → r1.isPresent = status →
      regCount regs' eid email = 1 →
        (mark_event_attendance regs' eid email status now').2 = true ∧
        mark_event_attendance regs' eid email status now' = (regs', true) ∧
        (mark_event_attendance regs' eid email (!status) now').2 = true ∧
        regCount (mark_event_attendance regs' eid email (!status) now').1
          eid email = 1 ∧
        (get_one (mark_event_attendance regs' eid email (!status) now').1
            eid email).map (fun r => (r.isPresent, r.attendedAt))
          = some (!status, some now') := by
    intro regs' r1 hget1 hpres1 hcount1
    have hsame : mark_event_attendance regs' eid email status now'
        = (regs', true) := by
      rw [mark_found regs' eid email r1 hget1, hpres1, if_pos (by simp)]
    have hflip : mark_event_attendance regs' eid email (!status) now'
        = (repo_mark_attendance regs' eid email (!status) now', true) := by
      rw [mark_found regs' eid email r1 hget1, hpres1, hflipbeq]
      simp
    refine ⟨by rw [hsame], hsame, by rw [hflip], ?_, ?_⟩
    · rw [hflip, regCount_repo_mark]
      exact hcount1
    · rw [hflip]
      show (get_one (repo_mark_attendance regs' eid email (!status) now')
          eid email).map (fun r => (r.isPresent, r.attendedAt)) = _
      rw [get_one_repo_mark, hget1]
      rfl
  by_cases hcase : r0.isPresent = status
  · have hm1 : mark_event_attendance regs eid email status now
        = (regs, true) := by
      rw [mark_found regs eid email r0 hget, hcase, if_pos (by simp)]
    rw [hm1]
    obtain ⟨h1, h2, h3, h4, h5⟩ := hkey regs r0 hget hcase h
    refine ⟨rfl, h, ?_, h2, h3, h4, h5⟩
    rw [hget]
    simp [hcase]
  · have hbeqf : (r0.isPresent == status) = false := by
      simp [hcase]
    have hm1 : mark_event_attendance regs eid email status now
        = (repo_mark_attendance regs eid email status now, true) := by
      rw [mark_found regs eid email r0 hget, hbeqf]
      simp
    have hget1 : get_one (repo_mark_attendance regs eid email status now)
        eid email
        = some { r0 with isPresent := status, attendedAt := some now } := by
      rw [get_one_repo_mark, hget]
      rfl
    have hcount1 : regCount (repo_mark_attendance regs eid email status now)
        eid email = 1 := by
      rw [regCount_repo_mark]
      exact h
    obtain ⟨h1, h2, h3, h4, h5⟩ := hkey
      (repo_mark_attendance regs eid email status now)
      { r0 with isPresent := status, attendedAt := some now } hget1 rfl
      hcount1
    rw [hm1]
    refine ⟨rfl, hcount1, ?_, h2, h3, h4, h5⟩
    rw [hget1]
    rfl

/-- Witness for C9: one registration, marked present twice and then
absent. -/
theorem attendance_idempotent_toggle_witness :
    (mark_event_attendance [⟨"e", "s", false, none⟩] "e" "s" true 5).2
      = true ∧
    regCount (mark_event_attendance [⟨"e", "s", false, none⟩]
        "e" "s" true 5).1 "e" "s" = 1 ∧
    (get_one (mark_event_attendance [⟨"e", "s", false, none⟩]
        "e" "s" true 5).1 "e" "s").map Registration.isPresent
      = some true ∧
    mark_event_attendance (mark_event_attendance [⟨"e", "s", false, none⟩]
        "e" "s" true 5).1 "e" "s" true 6
      = ((mark_event_attendance [⟨"e", "s", false, none⟩]
          "e" "s" true 5).1, true) ∧
    (mark_event_attendance (mark_event_attendance [⟨"e", "s", false, none⟩]
        "e" "s" true 5).1 "e" "s" (!true) 6).2 = true ∧
    regCount (mark_event_attendance
        (mark_event_attendance [⟨"e", "s", false, none⟩]
          "e" "s" true 5).1 "e" "s" (!true) 6).1 "e" "s" = 1 ∧
    (get_one (mark_event_attendance
        (mark_event_attendance [⟨"e", "s", false, none⟩]
          "e" "s" true 5).1 "e" "s" (!true) 6).1 "e" "s").map
        (fun r => (r.isPresent, r.attendedAt))
      = some (!true, some 6) :=
  attendance_idempotent_toggle [⟨"e", "s", false, none⟩] "e" "s" true 5 6
    (by decide)

end KecHub









